import Mathlib

/-!
Verification development for the whois-core Go library (`src/whois.go`).

The file shallowly embeds the library: pure string functions become Lean
functions on `String` (ASCII inputs, so Go byte indices coincide with char
indices), the network is an oracle (`Netw`) mapping the written query line,
dial target and port to either a response or a transport failure, and the
process-wide server directory is threaded explicitly as state.

Go string primitives are re-defined here on `String.data` lists so that all
definitions are executable and their properties are provable by elementary
list reasoning:
  strings.TrimSpace  -> goTrimSpace   (ASCII whitespace)
  strings.Trim(s,".")-> goTrimDots
  strings.ToUpper    -> goToUpper
  strings.ToLower    -> goToLower
  strings.Index      -> goIndex (Option Nat instead of -1)
  strings.Contains   -> goContainsStr / goContainsChar
  strings.HasPrefix  -> goStartsWith
  strings.Split      -> goSplit
-/

namespace WhoisCore

/-- Go `strings.TrimSpace`: drop whitespace from both ends. -/
def goTrimSpace (s : String) : String :=
  ⟨((s.data.dropWhile Char.isWhitespace).reverse.dropWhile Char.isWhitespace).reverse⟩

/-- Go `strings.Trim(s, ".")`: drop leading and trailing dots. -/
def goTrimDots (s : String) : String :=
  ⟨((s.data.dropWhile (· == '.')).reverse.dropWhile (· == '.')).reverse⟩

/-- Go `strings.ToUpper` (ASCII). -/
def goToUpper (s : String) : String := ⟨s.data.map Char.toUpper⟩

/-- Go `strings.ToLower` (ASCII). -/
def goToLower (s : String) : String := ⟨s.data.map Char.toLower⟩

/-- Go `strings.HasPrefix`. -/
def goStartsWith (s pre : String) : Bool := pre.data.isPrefixOf s.data

/-- Go `strings.Contains(s, sub)` for a one-char substring. -/
def goContainsChar (s : String) (c : Char) : Bool := s.data.contains c

/-- First index (in chars) at which `sub` occurs in `hay`; Go `strings.Index`
returns -1 when absent, modelled as `none`. -/
def goIndexAux (sub : List Char) : List Char → Option Nat
  | [] => if sub.isEmpty then some 0 else none
  | c :: rest =>
    if sub.isPrefixOf (c :: rest) then some 0
    else (goIndexAux sub rest).map (· + 1)

/-- Go `strings.Index` on strings. -/
def goIndex (s sub : String) : Option Nat := goIndexAux sub.data s.data

/-- Go `strings.Contains(s, sub)` for a string substring. -/
def goContainsStr (s sub : String) : Bool := (goIndex s sub).isSome

/-- Go `strings.Split(s, sep)` for a one-char separator. -/
def goSplitAux (sep : Char) : List Char → List String
  | [] => [""]
  | c :: rest =>
    if c == sep then "" :: goSplitAux sep rest
    else
      match goSplitAux sep rest with
      | [] => [⟨[c]⟩]
      | t :: ts => (⟨c :: t.data⟩ : String) :: ts

/-- Go `strings.Split(s, ":")` (the only separator the source uses). -/
def goSplit (s : String) (sep : Char) : List String := goSplitAux sep s.data

/-- Constant `defaultWhoisServer` from `src/whois.go`: the IANA root whois server. -/
def defaultWhoisServer : String := "whois.iana.org"

/-- Constant `defaultWhoisPort` from `src/whois.go`. -/
def defaultWhoisPort : String := "43"

/-- Modelled from the spec: the ASN marker constant `asnPrefix` is referenced by
`src/whois.go` but defined in a file missing from src; per the spec the marker
is the uppercase ASN prefix "AS". -/
def asnMarker : String := "AS"

/-- Modelled from the spec: `IsASN` is referenced by `src/whois.go` but defined
in a file missing from src; per the spec a query matches the ASN pattern when
it is numeric, or already prefixed case-insensitively with the ASN marker
(i.e. numeric after stripping the marker case-insensitively). -/
def IsASN (s : String) : Bool :=
  let t := goToUpper s
  let t := if goStartsWith t asnMarker then ⟨t.data.drop 2⟩ else t
  !t.data.isEmpty && t.data.all Char.isDigit

/-- Modelled from the spec: `extractHostname` is referenced by `src/whois.go`
but defined in a file missing from src; per the spec, if the parsed value is a
URL only its hostname component is kept, otherwise the value is unchanged. -/
def extractHostname (s : String) : String :=
  match goIndex s "://" with
  | none => s
  | some i => ⟨(s.data.drop (i + 3)).takeWhile (· != '/')⟩

/-- The marker tokens of `getServer` (`src/whois.go` lines 243-248), in source
order. -/
def serverTokens : List String :=
  ["Registrar WHOIS Server: ", "whois: ", "ReferralServer: ", "refer: "]

/-- The token loop of `getServer` (`src/whois.go` lines 250-272): for the first
token occurring in `data`, take the value up to the next line break (or end of
text), trim it, normalize a URL to a hostname, and split a host:port form. -/
def getServerAux (data : String) : List String → String × String
  | [] => ("", "")
  | token :: rest =>
    match goIndex data token with
    | none => getServerAux data rest
    | some start0 =>
      let start := start0 + token.data.length
      let tail : List Char := data.data.drop start
      let endIdx : Nat :=
        match goIndexAux ['\n'] tail with
        | none => tail.length
        | some e => e
      let server := goTrimSpace ⟨tail.take endIdx⟩
      let server := extractHostname server
      if goContainsChar server ':' then
        let v := goSplit server ':'
        (v.getD 0 "", v.getD 1 "")
      else
        (server, defaultWhoisPort)

/-- Function `getServer` (`src/whois.go` lines 242-273): extract a referral (server,
port) from whois response text; `("", "")` when no token matches. -/
def getServer (data : String) : String × String := getServerAux data serverTokens

/-- Modelled from the spec: the `serverMap` type is referenced by `src/whois.go`
but defined in a file missing from src. Per the spec it holds two tables: the
extension-to-server directory and the server rewrite table; lookups are pure,
`SetWhoisServer` is insert-or-overwrite. Modelled as association lists where
the most recent insertion wins. -/
structure ServerMap where
  whoisServers : List (String × String)
  rewriteServers : List (String × String)
deriving DecidableEq

/-- Modelled from the spec: `GetWhoisServer(extension) -> (server, found)`,
a pure lookup. -/
def ServerMap.GetWhoisServer (m : ServerMap) (ext : String) : Option String :=
  (m.whoisServers.find? (fun p => p.1 == ext)).map (·.2)

/-- Modelled from the spec: `SetWhoisServer(extension, server)`,
insert-or-overwrite. -/
def ServerMap.SetWhoisServer (m : ServerMap) (ext server : String) : ServerMap :=
  { m with whoisServers := (ext, server) :: m.whoisServers }

/-- Modelled from the spec: `GetRewriteServer(server) -> (altServer, found)`,
a pure lookup substituting the dial target. -/
def ServerMap.GetRewriteServer (m : ServerMap) (server : String) : Option String :=
  (m.rewriteServers.find? (fun p => p.1 == server)).map (·.2)

/-- Transport-stage failures of one raw exchange (dial / write / read),
carrying the underlying error message. -/
inductive NetFail where
  | connect (msg : String)
  | send (msg : String)
  | read (msg : String)
deriving DecidableEq

/-- The network oracle: given the bytes written as the query line (CRLF
included), the dialled server and the port, returns the full response read
until EOF, or the stage at which the exchange failed. It abstracts the
dial/write/read sequence of `rawQuery` (`src/whois.go` lines 210-238). -/
structure Netw where
  run : String → String → String → Except NetFail String

/-- The error values a `Whois` call can return (`src/whois.go`): the two
sentinel errors `ErrDomainEmpty` and `ErrWhoisServerNotFound` (modelled from
the spec: their definitions are in a file missing from src; the spec names
them `EmptyQuery` and `ServerNotFound`), and the `fmt.Errorf` wrappers built
in `Whois` and `rawQuery`. -/
inductive WErr where
  | errDomainEmpty
  | errWhoisServerNotFound (domain : String)
  | queryForWhoisServerFailed (inner : WErr)
  | connectFailed (server msg : String)
  | sendFailed (server msg : String)
  | readFailed (server msg : String)
deriving DecidableEq

/-- Type `Client` (`src/whois.go` lines 54-62), restricted to the fields the pure
model observes; the dialer and timeouts live in the `Netw` oracle. -/
structure Client where
  disableStats : Bool
  disableReferral : Bool
  serverMap : ServerMap
deriving DecidableEq

/-- The ARIN reformatting of `rawQuery` (`src/whois.go` lines 197-203): the
outgoing query line, computed from the resolved server before any rewrite. -/
def rawQueryLine (domain server : String) : String :=
  if server == "whois.arin.net" then
    if IsASN domain then "a + " ++ domain else "n + " ++ domain
  else domain

/-- The rewrite-table substitution of `rawQuery` (`src/whois.go` lines
205-208): the server actually dialled. -/
def rawDialServer (c : Client) (server : String) : String :=
  match c.serverMap.GetRewriteServer server with
  | some value => value
  | none => server

/-- Error tagging of `rawQuery` (`src/whois.go` lines 214-234): each transport
stage failure is wrapped with the (post-rewrite) server name. -/
def netOutcome (server : String) : Except NetFail String → Except WErr String
  | .ok buffer => .ok buffer
  | .error (.connect m) => .error (.connectFailed server m)
  | .error (.send m) => .error (.sendFailed server m)
  | .error (.read m) => .error (.readFailed server m)

/-- Method `rawQuery` (`src/whois.go` lines 194-239): reformat the query for ARIN,
substitute the dial target through the rewrite table, write the query line
terminated by CRLF, and read the whole response. -/
def rawQuery (c : Client) (n : Netw) (domain server port : String) :
    Except WErr String :=
  let line := rawQueryLine domain server
  let dial := rawDialServer c server
  netOutcome dial (n.run (line ++ "\r\n") dial port)

/-- Step 1 of `Client.Whois` (`src/whois.go` line 131): trim whitespace, then
strip leading and trailing dots. -/
def normalizeQuery (s : String) : String := goTrimDots (goTrimSpace s)

/-- Step 2 of `Client.Whois` (`src/whois.go` lines 136-141): an ASN query not
already carrying the marker prefix (case-insensitively) gets the uppercase
marker prepended; otherwise the query is unchanged. -/
def canonicalizeASN (domain : String) : String :=
  if IsASN domain && !(goStartsWith (goToUpper domain) asnMarker) then
    asnMarker ++ domain
  else domain

/-- The outcome of one `Client.Whois` call, before the deferred result
formatting: the named return values `(result, err)` of the Go function, the
final state of the shared whois-server directory, and the list of `rawQuery`
invocations `(domain, server, port)` issued, in order. -/
structure WOut where
  result : String
  qerr : Option WErr
  map : ServerMap
  calls : List (String × String × String)
deriving DecidableEq

/-- Lines 171-190 of `src/whois.go`: the primary raw query against the
resolved server followed by the optional referral chase. Note that the Go
short declaration `data, err := c.rawQuery(...)` on line 185 redeclares the
named return `err` (both live in the function body scope), so a referral
failure is assigned to the named return and survives the bare `return` on
line 190. -/
def afterResolve (c : Client) (n : Netw) (domain server port : String)
    (m : ServerMap) (calls0 : List (String × String × String)) : WOut :=
  match rawQuery c n domain server port with
  | .error e => ⟨"", some e, m, calls0 ++ [(domain, server, port)]⟩
  | .ok result =>
    let calls1 := calls0 ++ [(domain, server, port)]
    if c.disableReferral then ⟨result, none, m, calls1⟩
    else
      let ref := getServer result
      if ref.1 == "" || ref.1 == server then ⟨result, none, m, calls1⟩
      else
        match rawQuery c n domain ref.1 ref.2 with
        | .ok data => ⟨result ++ data, none, m, calls1 ++ [(domain, ref.1, ref.2)]⟩
        | .error e => ⟨result, some e, m, calls1 ++ [(domain, ref.1, ref.2)]⟩

/-- Modelled from the spec: `getExtension` is referenced by `src/whois.go` but
defined in a file missing from src; per the spec the extension is the
rightmost label of the domain (the text after the last dot; the whole query
when it has no dot). -/
def getExtension (domain : String) : String :=
  ⟨(domain.data.reverse.takeWhile (· != '.')).reverse⟩

/-- Method `Client.Whois` (`src/whois.go` lines 120-191) without the deferred
formatting: normalization, ASN canonicalization, the bare-label fast path,
server resolution (override, cached directory, live discovery with
memoization), the primary query and the referral chase. -/
def WhoisRun (c : Client) (n : Netw) (domain0 : String)
    (servers : List String) : WOut :=
  let domain := normalizeQuery domain0
  if domain == "" then ⟨"", some .errDomainEmpty, c.serverMap, []⟩
  else
    let isASN := IsASN domain
    let domain := canonicalizeASN domain
    if !goContainsChar domain '.' && !goContainsChar domain ':' && !isASN then
      match rawQuery c n domain defaultWhoisServer defaultWhoisPort with
      | .ok s => ⟨s, none, c.serverMap, [(domain, defaultWhoisServer, defaultWhoisPort)]⟩
      | .error e => ⟨"", some e, c.serverMap, [(domain, defaultWhoisServer, defaultWhoisPort)]⟩
    else
      if (servers.headD "") ≠ "" then
        afterResolve c n domain (goToLower (servers.headD "")) defaultWhoisPort
          c.serverMap []
      else
        let ext := getExtension domain
        match c.serverMap.GetWhoisServer ext with
        | some v => afterResolve c n domain v defaultWhoisPort c.serverMap []
        | none =>
          match rawQuery c n ext defaultWhoisServer defaultWhoisPort with
          | .error e =>
            ⟨"", some (.queryForWhoisServerFailed e), c.serverMap,
              [(ext, defaultWhoisServer, defaultWhoisPort)]⟩
          | .ok r =>
            let sp := getServer r
            if sp.1 == "" then
              ⟨"", some (.errWhoisServerNotFound domain), c.serverMap,
                [(ext, defaultWhoisServer, defaultWhoisPort)]⟩
            else
              afterResolve c n domain sp.1 sp.2
                (c.serverMap.SetWhoisServer ext sp.1)
                [(ext, defaultWhoisServer, defaultWhoisPort)]

/-- The stats footer of `Client.Whois` (`src/whois.go` lines 125-127):
`fmt.Sprintf("%s\n\n%% Query time: %d msec\n%% WHEN: %s\n", ...)` with the
elapsed milliseconds and the formatted start time. -/
def statsFooter (trimmed : String) (elapsedMs : Int) (whenStr : String) : String :=
  trimmed ++ "\n\n% Query time: " ++ toString elapsedMs ++ " msec\n% WHEN: "
    ++ whenStr ++ "\n"

/-- The deferred result formatting of `Client.Whois` (`src/whois.go` lines
122-129): trim the result; when it is non-empty and stats are enabled, append
the two-line footer. `elapsedMs` and `whenStr` stand for the wall-clock
measurements taken by the Go code. -/
def formatResult (c : Client) (elapsedMs : Int) (whenStr : String)
    (result : String) : String :=
  let result := goTrimSpace result
  if result ≠ "" && !c.disableStats then statsFooter result elapsedMs whenStr
  else result

/-- Method `Client.Whois` (`src/whois.go` lines 120-191) including the deferred
formatting, which runs on every return path. -/
def WhoisFull (c : Client) (n : Netw) (elapsedMs : Int) (whenStr : String)
    (domain0 : String) (servers : List String) : WOut :=
  let o := WhoisRun c n domain0 servers
  { o with result := formatResult c elapsedMs whenStr o.result }

/-- The package-level mutable state of `src/whois.go` (lines 34-37): the
lazily initialized shared directory pointer (`none` models the nil pointer)
and the `sync.Once` flag guarding `InitWhois`. -/
structure GlobalState where
  serverMapInstance : Option ServerMap
  onceDone : Bool
deriving DecidableEq

/-- The package state at program start: `serverMapInstance` is the nil
pointer and `onceWhois` has not fired. -/
def initialGlobal : GlobalState := ⟨none, false⟩

/-- The directory reference a client captures: `NewClient` (`src/whois.go`
lines 85-93) copies the current value of the global pointer into the new
client's `serverMap` field. -/
structure ClientRef where
  serverMapRef : Option ServerMap
deriving DecidableEq

/-- Constructor `NewClient` (`src/whois.go` lines 85-93), restricted to the directory
field: the constructed client stores the global pointer's current value. -/
def NewClient (g : GlobalState) : ClientRef := ⟨g.serverMapInstance⟩

/-- Value `DefaultClient` (`src/whois.go` line 51): constructed by the package
initializer, before any call to `InitWhois`, i.e. from `initialGlobal`. -/
def DefaultClient : ClientRef := NewClient initialGlobal

/-- Function `InitWhois` (`src/whois.go` lines 301-310), successful-load case: under
`sync.Once`, assign a freshly loaded directory to the global pointer. It
touches no previously constructed client. -/
def InitWhois (g : GlobalState) (loaded : ServerMap) : GlobalState :=
  if g.onceDone then g else ⟨some loaded, true⟩

/-! Concrete fixtures used to instantiate the theorems below. -/

/-- A directory with no cached extensions and no rewrites. -/
def emptyServerMap : ServerMap := ⟨[], []⟩

/-- A client with stats and referrals enabled over the empty directory. -/
def sampleClient : Client := ⟨false, false, emptyServerMap⟩

/-- A fixture network: the root server answers the discovery query for the
extension "xy" with a referral line, and every other exchange returns a plain
body with no referral token. -/
def sampleNet : Netw :=
  ⟨fun q _server _port =>
    if q == "xy\r\n" then .ok "whois: whois.nic.xy\n" else .ok "HELLO"⟩

/-- A client whose directory caches the "com" extension. -/
def refClient : Client := ⟨false, false, ⟨[("com", "whois.verisign-grs.com")], []⟩⟩

/-- A fixture network where the primary server answers with a referral to a
registrar server whose dial then fails. -/
def refNet : Netw :=
  ⟨fun _q server _port =>
    if server == "whois.verisign-grs.com" then
      .ok "Registrar WHOIS Server: whois.registrar.example\n"
    else if server == "whois.registrar.example" then
      .error (.connect "refused")
    else .ok ""⟩

/-! Helper lemmas. -/

/-- Transport-stage wrapping never produces the empty-query sentinel. -/
theorem netOutcome_ne_domainEmpty (server : String) (r : Except NetFail String) :
    netOutcome server r ≠ .error .errDomainEmpty := by
  cases r with
  | ok s => simp [netOutcome]
  | error e => cases e <;> simp [netOutcome]

/-- A raw query never fails with the empty-query sentinel. -/
theorem rawQuery_ne_domainEmpty (c : Client) (n : Netw) (d s p : String) :
    rawQuery c n d s p ≠ .error .errDomainEmpty :=
  netOutcome_ne_domainEmpty _ _

/-- The primary-plus-referral stage never fails with the empty-query
sentinel. -/
theorem afterResolve_qerr_ne_domainEmpty (c : Client) (n : Netw)
    (d s p : String) (m : ServerMap) (cs : List (String × String × String)) :
    (afterResolve c n d s p m cs).qerr ≠ some WErr.errDomainEmpty := by
  unfold afterResolve
  split
  · next e hq =>
    intro h
    have he : e = WErr.errDomainEmpty := by simpa using h
    rw [he] at hq
    exact rawQuery_ne_domainEmpty c n d s p hq
  · next result hq =>
    dsimp only
    split
    · simp
    · split
      · simp
      · split
        · simp
        · next e hq2 =>
          intro h
          have he : e = WErr.errDomainEmpty := by simpa using h
          rw [he] at hq2
          exact rawQuery_ne_domainEmpty c n d _ _ hq2

/-- Every raw query issued by the primary-plus-referral stage either was
already in the incoming log or sends the full domain as its query string. -/
theorem afterResolve_calls (c : Client) (n : Netw) (d s p : String)
    (m : ServerMap) (cs : List (String × String × String)) :
    ∀ e ∈ (afterResolve c n d s p m cs).calls, e ∈ cs ∨ e.1 = d := by
  unfold afterResolve
  split
  · intro x hx
    rcases List.mem_append.mp hx with h | h
    · exact Or.inl h
    · exact Or.inr (congrArg Prod.fst (List.mem_singleton.mp h))
  · dsimp only
    split
    · intro x hx
      rcases List.mem_append.mp hx with h | h
      · exact Or.inl h
      · exact Or.inr (congrArg Prod.fst (List.mem_singleton.mp h))
    · split
      · intro x hx
        rcases List.mem_append.mp hx with h | h
        · exact Or.inl h
        · exact Or.inr (congrArg Prod.fst (List.mem_singleton.mp h))
      · split
        · intro x hx
          rcases List.mem_append.mp hx with h | h
          · rcases List.mem_append.mp h with h2 | h2
            · exact Or.inl h2
            · exact Or.inr (congrArg Prod.fst (List.mem_singleton.mp h2))
          · exact Or.inr (congrArg Prod.fst (List.mem_singleton.mp h))
        · intro x hx
          rcases List.mem_append.mp hx with h | h
          · rcases List.mem_append.mp h with h2 | h2
            · exact Or.inl h2
            · exact Or.inr (congrArg Prod.fst (List.mem_singleton.mp h2))
          · exact Or.inr (congrArg Prod.fst (List.mem_singleton.mp h))

/-! Claim theorems. -/

/-- C6: the referral parser scans for the marker tokens in the fixed priority
order, takes the value up to the next line break, trims it, splits a
host:port form (default port "43" otherwise), and returns ("", "") when no
token matches; in particular the two concrete responses of the claim parse to
("whois.example.com", "43") and ("whois.example.org", "4321"). -/
theorem getServer_referral_extraction :
    getServer "Registrar WHOIS Server: whois.example.com\n" = ("whois.example.com", "43")
    ∧ getServer "ReferralServer: whois.example.org:4321\n" = ("whois.example.org", "4321")
    ∧ ∀ data : String, (∀ t ∈ serverTokens, goIndex data t = none) →
        getServer data = ("", "") := by
  refine ⟨by decide, by decide, ?_⟩
  intro data h
  have h1 : goIndex data "Registrar WHOIS Server: " = none := h _ (by simp [serverTokens])
  have h2 : goIndex data "whois: " = none := h _ (by simp [serverTokens])
  have h3 : goIndex data "ReferralServer: " = none := h _ (by simp [serverTokens])
  have h4 : goIndex data "refer: " = none := h _ (by simp [serverTokens])
  simp [getServer, serverTokens, getServerAux, h1, h2, h3, h4]

/-- C6 witness: the parser applied to a concrete text holding no marker
token. -/
theorem getServer_referral_extraction_witness :
    getServer "no markers here" = ("", "") :=
  getServer_referral_extraction.2.2 "no markers here" (by decide)

/-- C9: the input query is trimmed of whitespace and stripped of leading and
trailing dots, so " example.com " and "example.com." both normalize to
"example.com", and a Whois call fails with the empty-query error exactly when
the normalized query is empty. -/
theorem whois_normalizes_and_empty_query (c : Client) (n : Netw)
    (dom : String) (servers : List String) :
    normalizeQuery " example.com " = "example.com"
    ∧ normalizeQuery "example.com." = "example.com"
    ∧ normalizeQuery dom = goTrimDots (goTrimSpace dom)
    ∧ ((WhoisRun c n dom servers).qerr = some WErr.errDomainEmpty ↔
        normalizeQuery dom = "") := by
  refine ⟨by decide, by decide, rfl, ?_, ?_⟩
  · intro h
    by_contra hne
    revert h
    unfold WhoisRun
    have hbeq : (normalizeQuery dom == "") = false := by
      simp [hne]
    dsimp only
    rw [hbeq]
    simp only [Bool.false_eq_true, if_false]
    split
    · split
      · simp
      · next e heq =>
        intro h
        have he : e = WErr.errDomainEmpty := by simpa using h
        rw [he] at heq
        exact rawQuery_ne_domainEmpty _ _ _ _ _ heq
    · split
      · exact fun h =>
          afterResolve_qerr_ne_domainEmpty _ _ _ _ _ _ _ h
      · split
        · exact fun h => afterResolve_qerr_ne_domainEmpty _ _ _ _ _ _ _ h
        · split
          · simp
          · split
            · simp
            · exact fun h => afterResolve_qerr_ne_domainEmpty _ _ _ _ _ _ _ h
  · intro h
    unfold WhoisRun
    rw [h]
    simp

/-- C9 witness: a query of dots and spaces normalizes to empty and fails with
the empty-query error; a normal query does not fail that way. -/
theorem whois_normalizes_and_empty_query_witness :
    (WhoisRun sampleClient sampleNet " .. " []).qerr = some WErr.errDomainEmpty :=
  ((whois_normalizes_and_empty_query sampleClient sampleNet " .. " []).2.2.2).mpr
    (by decide)

/-- C7: when the resolved server (before rewrite substitution) is the ARIN
registry server, the outgoing query line is "a + " ++ query for ASN queries
and "n + " ++ query otherwise, and the rewrite table is consulted only after
this reformatting, substituting only the dial target. -/
theorem rawQuery_arin_reformatting (c : Client) (n : Netw) (q port : String) :
    rawQueryLine q "whois.arin.net" = (if IsASN q then "a + " ++ q else "n + " ++ q)
    ∧ rawDialServer c "whois.arin.net" =
        ((c.serverMap.GetRewriteServer "whois.arin.net").getD "whois.arin.net")
    ∧ rawQuery c n q "whois.arin.net" port =
        netOutcome (rawDialServer c "whois.arin.net")
          (n.run ((if IsASN q then "a + " ++ q else "n + " ++ q) ++ "\r\n")
            (rawDialServer c "whois.arin.net") port) := by
  refine ⟨by simp [rawQueryLine], ?_, by simp [rawQuery, rawQueryLine]⟩
  cases h : c.serverMap.GetRewriteServer "whois.arin.net" <;>
    simp [rawDialServer, h]

/-- C8: every Whois call runs the deferred formatting on its result: the
result is trimmed; when stats are enabled and the trimmed result is
non-empty, the two-line footer with the elapsed milliseconds and the start
timestamp is appended; when stats are disabled no footer is appended. -/
theorem whois_result_formatting (c : Client) (n : Netw) (ms : Int)
    (w dom r : String) (servers : List String) :
    (WhoisFull c n ms w dom servers).result =
      formatResult c ms w (WhoisRun c n dom servers).result
    ∧ (c.disableStats = true → formatResult c ms w r = goTrimSpace r)
    ∧ (c.disableStats = false → goTrimSpace r ≠ "" →
        formatResult c ms w r =
          goTrimSpace r ++ "\n\n% Query time: " ++ toString ms
            ++ " msec\n% WHEN: " ++ w ++ "\n")
    ∧ (goTrimSpace r = "" → formatResult c ms w r = goTrimSpace r) := by
  refine ⟨by dsimp only [WhoisFull], ?_, ?_, ?_⟩
  · intro h
    simp [formatResult, h]
  · intro h1 h2
    simp [formatResult, statsFooter, h1, h2]
  · intro h
    simp [formatResult, h]

/-- C8 witness: with stats enabled, a concrete result gets trimmed and
footered; with the trimmed result empty, nothing is appended. -/
theorem whois_result_formatting_witness :
    formatResult sampleClient 5 "Mon Jan 02 15:04:05 MST 2006" " data " =
      "data\n\n% Query time: 5 msec\n% WHEN: Mon Jan 02 15:04:05 MST 2006\n" := by
  have h := (whois_result_formatting sampleClient sampleNet 5
    "Mon Jan 02 15:04:05 MST 2006" "x" " data " []).2.2.1 rfl (by decide)
  exact h.trans (by decide)

/-- C3: NewClient copies the current value of the global directory pointer at
construction time; DefaultClient is constructed from the pre-initialization
state and hence holds the nil directory reference, while InitWhois only
assigns the global pointer (for the next constructions) and leaves every
already-constructed client's reference as captured. -/
theorem defaultClient_nil_directory (loaded : ServerMap) (g : GlobalState) :
    DefaultClient.serverMapRef = none
    ∧ (NewClient g).serverMapRef = g.serverMapInstance
    ∧ (InitWhois initialGlobal loaded).serverMapInstance = some loaded
    ∧ (NewClient (InitWhois initialGlobal loaded)).serverMapRef = some loaded
    ∧ DefaultClient = NewClient initialGlobal :=
  ⟨rfl, rfl, rfl, rfl, rfl⟩

set_option maxHeartbeats 1000000 in
/-- C1 (code evaluated at the failing input): with referrals enabled, a
successful primary query whose response names a distinct referral server, and
a referral dial that fails, the call returns the primary result text together
with the referral connect error — the referral error is assigned to the named
return `err` by the short declaration on line 185 of src/whois.go and is not
swallowed. -/
theorem referral_failure_not_swallowed :
    (WhoisRun refClient refNet "example.com" []).result =
      "Registrar WHOIS Server: whois.registrar.example\n"
    ∧ (WhoisRun refClient refNet "example.com" []).qerr =
        some (.connectFailed "whois.registrar.example" "refused")
    ∧ (WhoisRun refClient refNet "example.com" []).calls =
        [("example.com", "whois.verisign-grs.com", "43"),
         ("example.com", "whois.registrar.example", "43")] := by
  refine ⟨by decide, by decide, by decide⟩

/-- C2 counterexample: the claim says "AS15169", "as15169" and "15169" all
produce the same outgoing query form carrying the uppercase ASN prefix; on
the code, a query already prefixed case-insensitively is left unchanged, so
"as15169" keeps its lowercase prefix and its outgoing raw queries differ from
those of "AS15169". -/
theorem asn_canonicalization_counterexample :
    canonicalizeASN "as15169" = "as15169"
    ∧ canonicalizeASN "AS15169" = "AS15169"
    ∧ canonicalizeASN "15169" = "AS15169"
    ∧ canonicalizeASN "as15169" ≠ canonicalizeASN "AS15169"
    ∧ (WhoisRun sampleClient sampleNet "as15169" []).calls ≠
        (WhoisRun sampleClient sampleNet "AS15169" []).calls := by
  refine ⟨by decide, by decide, by decide, by decide, by decide⟩

/-- C2 amended: ASN classification is case-insensitive on the prefix, and
canonicalization guarantees a case-insensitive ASN prefix exactly once: a
prefix-less numeric query gets the uppercase marker prepended, while a query
already carrying the marker in any case is left unchanged — so "AS15169" and
"15169" coincide but "as15169" keeps its lowercase prefix. -/
theorem asn_canonicalization_amended (d : String) (h : IsASN d = true) :
    (goStartsWith (goToUpper d) asnMarker = true → canonicalizeASN d = d)
    ∧ (goStartsWith (goToUpper d) asnMarker = false →
        canonicalizeASN d = asnMarker ++ d)
    ∧ goStartsWith (goToUpper (canonicalizeASN d)) asnMarker = true := by
  refine ⟨?_, ?_, ?_⟩
  · intro hp
    simp [canonicalizeASN, hp]
  · intro hp
    simp [canonicalizeASN, h, hp]
  · cases hp : goStartsWith (goToUpper d) asnMarker with
    | true =>
      have hc : canonicalizeASN d = d := by simp [canonicalizeASN, hp]
      rw [hc]
      exact hp
    | false =>
      have hc : canonicalizeASN d = asnMarker ++ d := by
        simp [canonicalizeASN, h, hp]
      rw [hc]
      cases d with
      | mk l =>
        simp [goStartsWith, goToUpper, asnMarker, String.append,
          List.isPrefixOf]

/-- C2 amended witness: the amended statement applied to the three concrete
queries of the claim. -/
theorem asn_canonicalization_amended_witness :
    canonicalizeASN "15169" = asnMarker ++ "15169"
    ∧ canonicalizeASN "as15169" = "as15169" :=
  ⟨(asn_canonicalization_amended "15169" (by decide)).2.1 (by decide),
   (asn_canonicalization_amended "as15169" (by decide)).1 (by decide)⟩

/-- C5: a normalized query containing neither a dot nor a colon that is not
an ASN is sent as a single raw query to the root whois server on the default
port, with the directory untouched and no referral chase, and the call
returns that raw response. -/
theorem whois_bare_label_fast_path (c : Client) (n : Netw) (dom : String)
    (servers : List String)
    (hne : normalizeQuery dom ≠ "")
    (hdot : goContainsChar (normalizeQuery dom) '.' = false)
    (hcol : goContainsChar (normalizeQuery dom) ':' = false)
    (hasn : IsASN (normalizeQuery dom) = false) :
    WhoisRun c n dom servers =
      match rawQuery c n (normalizeQuery dom) defaultWhoisServer defaultWhoisPort with
      | .ok s => ⟨s, none, c.serverMap,
          [(normalizeQuery dom, defaultWhoisServer, defaultWhoisPort)]⟩
      | .error e => ⟨"", some e, c.serverMap,
          [(normalizeQuery dom, defaultWhoisServer, defaultWhoisPort)]⟩ := by
  have hcan : canonicalizeASN (normalizeQuery dom) = normalizeQuery dom := by
    simp [canonicalizeASN, hasn]
  unfold WhoisRun
  dsimp only
  rw [show (normalizeQuery dom == "") = false by simp [hne]]
  simp only [Bool.false_eq_true, if_false, hcan, hdot, hcol, hasn]
  simp

/-- C5 witness: the fixture network answers the bare query "com" with one raw
exchange against the root server. -/
theorem whois_bare_label_fast_path_witness :
    WhoisRun sampleClient sampleNet "com" [] =
      ⟨"HELLO", none, sampleClient.serverMap,
        [("com", defaultWhoisServer, defaultWhoisPort)]⟩ := by
  have h := whois_bare_label_fast_path sampleClient sampleNet "com" []
    (by decide) (by decide) (by decide) (by decide)
  exact h.trans (by decide)

/-- The extension extracted from a domain never contains a dot, hence differs
from any dotted domain. -/
theorem getExtension_ne_of_contains_dot (d : String)
    (hdot : goContainsChar d '.' = true) : getExtension d ≠ d := by
  intro hcontra
  have hmem : ('.' : Char) ∈ d.data := by
    have := hdot
    simpa [goContainsChar, List.contains, List.elem_iff] using this
  have hdata : (d.data.reverse.takeWhile (· != '.')).reverse = d.data :=
    congrArg String.data hcontra
  rw [← hdata, List.mem_reverse] at hmem
  have hp := List.mem_takeWhile_imp hmem
  simp at hp

/-- C4: for a dotted, non-override query, a cached extension is used with the
default port and no query carrying the bare extension is issued; with no
cached entry, the discovery query (extension, root server, default port) is
issued first, the call fails with the server-not-found error when no server
token parses from the reply, and on success the discovered server is
memoized under the extension, so a directory holding that entry answers any
later query for the same extension from the cache. -/
theorem whois_directory_resolution (c : Client) (n : Netw) (dom : String)
    (servers : List String) (d : String)
    (hd : normalizeQuery dom = d)
    (hne : d ≠ "")
    (hdot : goContainsChar d '.' = true)
    (hasn : IsASN d = false)
    (hov : servers.headD "" = "") :
    getExtension d ≠ d
    ∧ (∀ v, c.serverMap.GetWhoisServer (getExtension d) = some v →
        WhoisRun c n dom servers = afterResolve c n d v defaultWhoisPort c.serverMap []
        ∧ ∀ e ∈ (WhoisRun c n dom servers).calls, e.1 = d)
    ∧ (c.serverMap.GetWhoisServer (getExtension d) = none →
        (∀ fe, rawQuery c n (getExtension d) defaultWhoisServer defaultWhoisPort
            = .error fe →
          WhoisRun c n dom servers =
            ⟨"", some (.queryForWhoisServerFailed fe), c.serverMap,
              [(getExtension d, defaultWhoisServer, defaultWhoisPort)]⟩)
        ∧ (∀ r, rawQuery c n (getExtension d) defaultWhoisServer defaultWhoisPort
            = .ok r →
          ((getServer r).1 = "" →
            WhoisRun c n dom servers =
              ⟨"", some (.errWhoisServerNotFound d), c.serverMap,
                [(getExtension d, defaultWhoisServer, defaultWhoisPort)]⟩)
          ∧ ((getServer r).1 ≠ "" →
            WhoisRun c n dom servers =
              afterResolve c n d (getServer r).1 (getServer r).2
                (c.serverMap.SetWhoisServer (getExtension d) (getServer r).1)
                [(getExtension d, defaultWhoisServer, defaultWhoisPort)]
            ∧ (c.serverMap.SetWhoisServer (getExtension d) (getServer r).1).GetWhoisServer
                (getExtension d) = some (getServer r).1))) := by
  subst hd
  have hcan : canonicalizeASN (normalizeQuery dom) = normalizeQuery dom := by
    simp [canonicalizeASN, hasn]
  have hrun : WhoisRun c n dom servers =
      (match c.serverMap.GetWhoisServer (getExtension (normalizeQuery dom)) with
       | some v => afterResolve c n (normalizeQuery dom) v defaultWhoisPort c.serverMap []
       | none =>
         match rawQuery c n (getExtension (normalizeQuery dom)) defaultWhoisServer
             defaultWhoisPort with
         | .error e =>
           ⟨"", some (.queryForWhoisServerFailed e), c.serverMap,
             [(getExtension (normalizeQuery dom), defaultWhoisServer, defaultWhoisPort)]⟩
         | .ok r =>
           if ((getServer r).1 == "") = true then
             ⟨"", some (.errWhoisServerNotFound (normalizeQuery dom)), c.serverMap,
               [(getExtension (normalizeQuery dom), defaultWhoisServer, defaultWhoisPort)]⟩
           else
             afterResolve c n (normalizeQuery dom) (getServer r).1 (getServer r).2
               (c.serverMap.SetWhoisServer (getExtension (normalizeQuery dom)) (getServer r).1)
               [(getExtension (normalizeQuery dom), defaultWhoisServer, defaultWhoisPort)]) := by
    unfold WhoisRun
    dsimp only
    rw [show (normalizeQuery dom == "") = false by simp [hne]]
    simp only [Bool.false_eq_true, if_false, hcan, hdot, hasn, hov]
    simp
  refine ⟨getExtension_ne_of_contains_dot _ hdot, ?_, ?_⟩
  · intro v hv
    rw [hrun, hv]
    refine ⟨rfl, ?_⟩
    intro e he
    rcases afterResolve_calls c n (normalizeQuery dom) v defaultWhoisPort
      c.serverMap [] e he with h | h
    · simp at h
    · exact h
  · intro hnone
    refine ⟨?_, ?_⟩
    · intro fe hfe
      rw [hrun, hnone, hfe]
    · intro r hr
      refine ⟨?_, ?_⟩
      · intro hempty
        rw [hrun, hnone, hr]
        simp [hempty]
      · intro hnonempty
        refine ⟨?_, ?_⟩
        · rw [hrun, hnone, hr]
          simp [hnonempty]
        · simp [ServerMap.SetWhoisServer, ServerMap.GetWhoisServer]

/-- C4 witness: with the empty directory, querying "name.xy" against the
fixture network issues the discovery query for "xy" first, parses the
referral reply, memoizes "xy" into the directory, and continues with the
discovered server; the updated directory answers "xy" from the cache. -/
theorem whois_directory_resolution_witness :
    WhoisRun sampleClient sampleNet "name.xy" [] =
      afterResolve sampleClient sampleNet "name.xy" "whois.nic.xy" "43"
        (sampleClient.serverMap.SetWhoisServer "xy" "whois.nic.xy")
        [("xy", defaultWhoisServer, defaultWhoisPort)]
    ∧ (sampleClient.serverMap.SetWhoisServer "xy" "whois.nic.xy").GetWhoisServer "xy" =
        some "whois.nic.xy" := by
  have h := whois_directory_resolution sampleClient sampleNet "name.xy" []
    "name.xy" rfl (by decide) (by decide) (by decide) rfl
  have h2 := ((h.2.2 (by decide)).2 "whois: whois.nic.xy\n" rfl).2 (by decide)
  exact ⟨h2.1.trans (by decide), h2.2.trans (by decide)⟩

end WhoisCore
